import Mathlib

/-
Verification of the twitch_message_bot repository: a shallow embedding of the
connection manager (crates/twitch_message_bot/src/client.rs, writer.rs) and
the command dispatcher (crates/twitch_message_dispatcher/src: example_args.rs,
command.rs, bind.rs, dispatcher.rs, help.rs), with theorems checking the
natural-language specification against the code.

Rust strings (str) are modelled as lists of characters (Str).  Machinery that
the spec treats as an opaque wire codec (twitch_message::encode) is modelled
by the Frame type: one constructor per encoded protocol line.
-/

deriving instance DecidableEq for Except

namespace TMB

/-- Model of a Rust string slice: a sequence of characters. -/
abbrev Str := List Char

/-- Whitespace test used by str::trim / split_whitespace (ASCII fragment of
Unicode whitespace; all strings in the claims are ASCII). -/
def isWspace (c : Char) : Bool :=
  c = ' ' || c = '\t' || c = '\n' || c = '\r'

/-- Model of str::trim: drop whitespace from both ends. -/
def trim (l : Str) : Str :=
  ((l.dropWhile isWspace).reverse.dropWhile isWspace).reverse

/-- Model of str::split(c) (core of data.split in Client::handle_write):
splits on every occurrence of c, keeping empty segments, as Rust does. -/
def splitOnChar (c : Char) : Str → List Str
  | [] => [[]]
  | x :: xs =>
    let r := splitOnChar c xs
    if x = c then [] :: r
    else (x :: r.headD []) :: r.tail

/-- Model of str::split_whitespace (auxiliary accumulator form). -/
def splitWsAux : Str → Str → List Str
  | [], acc => if acc.isEmpty then [] else [acc.reverse]
  | c :: cs, acc =>
    if isWspace c then
      if acc.isEmpty then splitWsAux cs []
      else acc.reverse :: splitWsAux cs []
    else splitWsAux cs (c :: acc)

/-- Model of str::split_whitespace: maximal runs of non-whitespace. -/
def splitWhitespace (l : Str) : List Str :=
  splitWsAux l []

/-- Model of str::find(c): index of the first occurrence of c. -/
def findChar (c : Char) (l : Str) : Option Nat :=
  l.findIdx? (· = c)

/-- Model of HashMap::insert: replace the value at the key if present,
otherwise append the pair. -/
def mapInsert (k v : Str) : List (Str × Str) → List (Str × Str)
  | [] => [(k, v)]
  | (k2, v2) :: rest =>
    if k2 = k then (k, v) :: rest else (k2, v2) :: mapInsert k v rest

/-- Model of HashMap::get on an association list. -/
def lookupAssoc (m : List (Str × Str)) (k : Str) : Option Str :=
  (m.find? (fun p => p.1 == k)).map Prod.snd

/-- Model of HashSet::insert on the set's contents (kept as a duplicate-free
list in insertion order; iteration order of the Rust HashSet is abstracted
separately, as an arbitrary permutation of the contents). -/
def hashInsert (c : Str) (l : List Str) : List Str :=
  if c ∈ l then l else l ++ [c]

/-- Model of HashSet::remove on the set's contents. -/
def hashRemove (c : Str) (l : List Str) : List Str :=
  l.filter (fun x => x ≠ c)

/-- Model of the IterExt::join_with helper in dispatcher.rs. -/
def joinWith (sep : Str) (l : List Str) : Str :=
  l.foldl (fun a c => if a.isEmpty then c else a ++ sep ++ c) []

/-- Model of the IterExt::join_multiline_max helper in dispatcher.rs. -/
def joinMultilineMax (max : Nat) (l : List Str) : Str :=
  (l.enum.foldl
    (fun a ic =>
      let a := if ic.1 > 0 && ic.1 % max = 0 then a ++ ['\n'] else a
      let a := if a.isEmpty then a else a ++ [' ']
      a ++ ic.2)
    [])

/-! ## Write queue (writer.rs) -/

/-- Model of writer.rs WriteKind: the tagged write-request variants.  The
MsgId of a Reply is modelled as a string. -/
inductive WriteKind
  | join (channel : Str)
  | part (channel : Str)
  | raw (text : Str)
  | privmsg (target data : Str)
  | reply (id target data : Str)
  | quit
deriving DecidableEq

/-- Is the request a channel-membership request (Join or Part)? -/
def isMembership : WriteKind → Bool
  | .join _ => true
  | .part _ => true
  | _ => false

/-! ## Encoded protocol lines (the opaque codec boundary) -/

/-- One encoded protocol line written to the socket.  The actual byte encoding
(twitch_message::encode) is opaque per the spec; each encode call is kept as a
symbolic frame. -/
inductive Frame
  | join (channel : Str)
  | part (channel : Str)
  | raw (text : Str)
  | privmsg (target data : Str)
  | reply (id target data : Str)
  | quit
  | ping
  | pong
deriving DecidableEq

/-- Model of Client::handle_write: Join/Part/Raw/Quit become one frame;
Privmsg/Reply bodies are split on newline and each segment is trimmed,
yielding one frame per segment. -/
def handleWrite : WriteKind → List Frame
  | .join c => [.join c]
  | .part c => [.part c]
  | .raw r => [.raw r]
  | .privmsg t d => (splitOnChar '\n' d).map (fun seg => .privmsg t (trim seg))
  | .reply i t d => (splitOnChar '\n' d).map (fun seg => .reply i t (trim seg))
  | .quit => [.quit]

/-! ## Connection manager state (client.rs) -/

/-- The parts of Client mutated by drain_pending_writes: the joined-channel
set (contents in insertion order) and the pending queue. -/
structure ClientState where
  channels : List Str
  queue : List WriteKind
deriving DecidableEq

/-- One step of Client::drain_pending_writes: Join/Part update the channel
set, everything else is pushed onto the pending queue. -/
def drainStep (s : ClientState) : WriteKind → ClientState
  | .join c => { s with channels := hashInsert c s.channels }
  | .part c => { s with channels := hashRemove c s.channels }
  | k => { s with queue := s.queue ++ [k] }

/-- Model of Client::drain_pending_writes over the writes already queued
before a socket exists. -/
def drainPendingWrites (s : ClientState) (pending : List WriteKind) : ClientState :=
  pending.foldl drainStep s

/-- The channel-set effect of a list of write requests (Join inserts, Part
removes, everything else leaves the set alone). -/
def channelFold (cs : List Str) (pending : List WriteKind) : List Str :=
  pending.foldl
    (fun cs k =>
      match k with
      | .join c => hashInsert c cs
      | .part c => hashRemove c cs
      | _ => cs)
    cs

/-! ## The event loop (Client::run) -/

/-- Parsed inbound messages, restricted to the session-shaping kinds the
event loop inspects (everything else is the catch-all `other`). -/
inductive Msg
  | ready (name : Str)
  | globalUserState (userId : Str)
  | joined (user channel : Str)
  | parted (user channel : Str)
  | privmsg (sender channel data : Str)
  | other
deriving DecidableEq

/-- One occurrence of the three-way read/write/timeout race in Client::run,
plus the two closed-stream outcomes. -/
inductive Event
  | inbound (m : Msg)
  | writeReq (k : WriteKind)
  | timeout
  | readClosed
  | queueClosed
deriving DecidableEq

/-- Is the event the inbound Ready message (which records the login name)? -/
def isReadyEvent : Event → Bool
  | .inbound (.ready _) => true
  | _ => false

/-- Is the event the inbound GlobalUserState (global identity) message? -/
def isIdentityEvent : Event → Bool
  | .inbound (.globalUserState _) => true
  | _ => false

/-- The loop-local state of Client::run: the recorded login name (None until
the Ready message) and the pending queue. -/
structure LoopState where
  ourName : Option Str
  queue : List WriteKind
deriving DecidableEq

/-- Result of one loop iteration: continue with a new state, stop (Ok when
the Bool is true, an error otherwise), or panic (the expect in the
GlobalUserState arm when no Ready was seen).  Each carries the frames
written to the socket during the iteration. -/
inductive StepOut
  | next (s : LoopState) (out : List Frame)
  | stop (ok : Bool) (out : List Frame)
  | panicked
deriving DecidableEq

/-- Model of the GlobalUserState drain: pop the pending queue front-to-back,
writing each request; a Quit request stops the loop once flushed. -/
def flushQueue : List WriteKind → List Frame × Bool
  | [] => ([], false)
  | k :: ks =>
    let fs := handleWrite k
    match k with
    | .quit => (fs, true)
    | _ =>
      let r := flushQueue ks
      (fs ++ r.1, r.2)

/-- One iteration of the Client::run event loop (the match on the raced
event in client.rs).  Handler notifications perform no socket writes and are
not tracked. -/
def step (s : LoopState) : Event → StepOut
  | .inbound m =>
    match m with
    | .ready name => .next { s with ourName := some name } []
    | .globalUserState _ =>
      match s.ourName with
      | none => .panicked
      | some _ =>
        let r := flushQueue s.queue
        if r.2 then .stop true r.1
        else .next { s with queue := [] } r.1
    | _ => .next s []
  | .writeReq k =>
    match s.ourName with
    | some _ =>
      match k with
      | .quit => .stop true (handleWrite .quit)
      | _ => .next s (handleWrite k)
    | none => .next { s with queue := s.queue ++ [k] } []
  | .timeout => .next s [.ping]
  | .readClosed => .stop false []
  | .queueClosed => .stop true []

/-- The socket frames produced by running the event loop over a sequence of
raced events. -/
def runTrace (s : LoopState) : List Event → List Frame
  | [] => []
  | e :: es =>
    match step s e with
    | .next s2 out => out ++ runTrace s2 es
    | .stop _ out => out
    | .panicked => []

/-- Model of Client::run from the top: the rejoin prelude (one Join frame per
channel, in the HashSet's iteration order `chanIter`) followed by the event
loop.  `chanIter` is an arbitrary enumeration of the channel set: the Rust
HashSet guarantees no particular iteration order, so any permutation of the
set's contents is a possible behaviour. -/
def runWrites (chanIter : List Str) (s : LoopState) (events : List Event) : List Frame :=
  chanIter.map Frame.join ++ runTrace s events

/-! ## Writer (writer.rs) -/

/-- Model of UnboundedSender::send with the result discarded: the request is
delivered unless the receiver is closed, in which case it is silently
dropped. -/
def writerSend (closed : Bool) (k : WriteKind) : List WriteKind :=
  if closed then [] else [k]

/-- The Privmsg message fields the dispatcher and writer read: sender login,
channel, text, optional user-id tag, optional msg-id tag, and the role
flags. -/
structure PrivmsgMsg where
  sender : Str
  channel : Str
  data : Str
  userId : Option Str
  msgId : Option Str
  isModerator : Bool
  isBroadcaster : Bool
  isSubscriber : Bool
  isVip : Bool
deriving DecidableEq

/-- Model of Writer::join_channel. -/
def Writer.joinChannel (closed : Bool) (channel : Str) : List WriteKind :=
  writerSend closed (.join channel)

/-- Model of Writer::part_channel. -/
def Writer.partChannel (closed : Bool) (channel : Str) : List WriteKind :=
  writerSend closed (.part channel)

/-- Model of Writer::send_raw. -/
def Writer.sendRaw (closed : Bool) (text : Str) : List WriteKind :=
  writerSend closed (.raw text)

/-- Model of Writer::privmsg. -/
def Writer.privmsg (closed : Bool) (m : PrivmsgMsg) (data : Str) : List WriteKind :=
  writerSend closed (.privmsg m.channel data)

/-- Model of Writer::quit. -/
def Writer.quit (closed : Bool) : List WriteKind :=
  writerSend closed .quit

/-! ## Argument grammar (example_args.rs) -/

/-- Model of ArgKind. -/
inductive ArgKind
  | required
  | optional
  | variadic
deriving DecidableEq

/-- Model of ArgType: one slot of the grammar. -/
structure ArgType where
  key : Str
  kind : ArgKind
deriving DecidableEq

/-- Model of ExampleArgs: the original usage string plus the compiled slots. -/
structure ExampleArgs where
  usage : Str
  args : List ArgType
deriving DecidableEq

/-- Model of ExampleError. -/
inductive ExampleError
  | duplicate (key : Str)
  | multipleVariadic (keys : List Str)
  | variadicNotInTail (key : Str)
  | invalidKey (key : Str)
  | optionalBeforeRequired (key : Str)
  | emptyInput
  | invalidCommand (input : Str)
deriving DecidableEq

/-- Model of the Match enum returned by ExampleArgs::extract.  The map of the
matched case is a HashMap, modelled as an association list with unique keys
(mapInsert). -/
inductive MatchResult
  | required
  | noMatch
  | matched (map : List (Str × Str))
deriving DecidableEq

/-- Does the grammar contain a slot of the given kind (ExampleArgs::contains)? -/
def containsKind (ea : ExampleArgs) (k : ArgKind) : Bool :=
  ea.args.any (fun a => a.kind = k)

/-- The slot-walking loop of ExampleArgs::extract: a Required/Optional slot
with a space left in the input takes the text before the space and leaves the
trimmed remainder; a Required/Optional slot on the last token, or a Variadic
slot anywhere, takes the whole remaining input and stops (inserting nothing
when the remaining input is empty). -/
def extractLoop : Str → List ArgType → List (Str × Str) → List (Str × Str)
  | _, [], map => map
  | input, at1 :: rest, map =>
    match at1.kind, findChar ' ' input with
    | ArgKind.variadic, _ =>
      if input.isEmpty then map else mapInsert at1.key input map
    | _, none =>
      if input.isEmpty then map else mapInsert at1.key input map
    | _, some pos =>
      extractLoop (trim (input.drop pos)) rest (mapInsert at1.key (input.take pos) map)

/-- Model of ExampleArgs::extract: the early returns for empty input or an
empty grammar, then the slot-walking loop. -/
def ExampleArgs.extract (ea : ExampleArgs) (input : Str) : MatchResult :=
  if input.isEmpty && containsKind ea .required then .required
  else if input.isEmpty && !ea.args.isEmpty
      && !containsKind ea .optional && !containsKind ea .variadic then .noMatch
  else if !input.isEmpty && ea.args.isEmpty then .noMatch
  else .matched (extractLoop input ea.args [])

/-- The key-character check of from_str's all_alpha closure:
A-Z, a-z, 0-9, underscore, hyphen. -/
def validKeyChar (c : Char) : Bool :=
  c.isAlphanum || c = '_' || c = '-'

/-- Model of one token's slot syntax in from_str: angle brackets with an
optional trailing `?` (optional) or `..` (variadic); anything else is skipped. -/
def parseToken (token : Str) : Option (Str × ArgKind) :=
  match token with
  | '<' :: rest =>
    match rest.reverse with
    | '>' :: '.' :: '.' :: mid => some (mid.reverse, .variadic)
    | '>' :: '?' :: mid => some (mid.reverse, .optional)
    | '>' :: mid => some (mid.reverse, .required)
    | _ => none
  | _ => none

/-- The token loop of from_str: per slot token, first the duplicate-key check
(the seen set), then the key-character check, accumulating slots in order. -/
def fromStrLoop : List Str → List Str → List ArgType →
    Except ExampleError (List ArgType)
  | [], _, acc => .ok acc
  | token :: rest, seen, acc =>
    match parseToken token with
    | none => fromStrLoop rest seen acc
    | some (key, kind) =>
      if seen.contains key then .error (.duplicate key)
      else if key.all validKeyChar then
        fromStrLoop rest (seen ++ [key]) (acc ++ [⟨key, kind⟩])
      else .error (.invalidKey key)

/-- The pairwise walk of ExampleArgs::validate: an Optional slot directly
before a Required slot, or a Variadic slot with anything after it, is
rejected. -/
def validatePairs : List ArgType → Except ExampleError Unit
  | [] => .ok ()
  | a :: rest =>
    match rest with
    | b :: _ =>
      if a.kind = ArgKind.optional && b.kind = ArgKind.required then
        .error (.optionalBeforeRequired a.key)
      else if a.kind = ArgKind.variadic then
        .error (.variadicNotInTail a.key)
      else validatePairs rest
    | [] => .ok ()

/-- Model of ExampleArgs::validate: at most one Variadic slot, then the
pairwise ordering checks. -/
def validate (args : List ArgType) : Except ExampleError Unit :=
  let vkeys := (args.filter (fun a => a.kind = ArgKind.variadic)).map (fun a => a.key)
  if vkeys.length > 1 then .error (.multipleVariadic vkeys)
  else validatePairs args

/-- Model of ExampleArgs::from_str: trim, reject empty input, compile the
slot tokens, validate, and keep the trimmed input as the usage string. -/
def ExampleArgs.fromStr (input : Str) : Except ExampleError ExampleArgs :=
  let input := trim input
  if input.isEmpty then .error .emptyInput
  else
    match fromStrLoop (splitWhitespace input) [] [] with
    | .error e => .error e
    | .ok args =>
      match validate args with
      | .error e => .error e
      | .ok _ => .ok ⟨input, args⟩

/-! ## Access policy (command.rs) -/

/-- Model of the Access enum. -/
inductive Access
  | moderator
  | broadcaster
  | subscriber
  | vip
  | user (name : Str)
  | userId (id : Str)
  | all
deriving DecidableEq

/-- Model of str::eq_ignore_ascii_case. -/
def eqIgnoreAsciiCase (a b : Str) : Bool :=
  a.map Char.toLower == b.map Char.toLower

/-- One arm of the predicate loop in PrivmsgAccess::is_allowed: does this
access predicate match the message (given the sender's user id)? -/
def accessMatches (pm : PrivmsgMsg) (uid : Str) : Access → Bool
  | .moderator => pm.isModerator
  | .broadcaster => pm.isBroadcaster
  | .subscriber => pm.isSubscriber
  | .vip => pm.isVip
  | .user name => eqIgnoreAsciiCase name pm.sender
  | .userId i => i == uid
  | .all => true

/-- Model of PrivmsgAccess::is_allowed: an empty list allows; a sender with
no user-id tag allows; otherwise allowed as soon as any predicate matches. -/
def isAllowed (pm : PrivmsgMsg) (access : List Access) : Bool :=
  if access.isEmpty then true
  else
    match pm.userId with
    | none => true
    | some uid => access.any (accessMatches pm uid)

/-! ## Command and its builder (command.rs) -/

/-- Model of Command. -/
structure Command where
  id : Str
  command : Str
  description : Str
  allowed : List Access
  arguments : ExampleArgs
  aliases : List Str
deriving DecidableEq

/-- Model of CommandBuilder (the seen set kept as a list of keys). -/
structure CommandBuilder where
  id : Str
  command : Str
  description : Str
  args : ExampleArgs
  aliases : List Str
  seen : List Str
  allowed : List Access
deriving DecidableEq

/-- Model of Command::builder: trims id, command and description. -/
def Command.mkBuilder (id command description : Str) : CommandBuilder :=
  ⟨trim id, trim command, trim description, ⟨[], []⟩, [], [], []⟩

/-- Model of CommandBuilder::args. -/
def CommandBuilder.withArgs (b : CommandBuilder) (a : ExampleArgs) : CommandBuilder :=
  { b with args := a }

/-- Model of CommandBuilder::alias: the alias is appended only when the seen
set did not already contain it; a duplicate leaves the builder unchanged. -/
def CommandBuilder.alias (b : CommandBuilder) (a : Str) : CommandBuilder :=
  if a ∈ b.seen then b
  else { b with aliases := b.aliases ++ [a], seen := b.seen ++ [a] }

/-- Model of CommandBuilder::allow. -/
def CommandBuilder.allow (b : CommandBuilder) (a : Access) : CommandBuilder :=
  { b with allowed := b.allowed ++ [a] }

/-- Model of CommandBuilderError: the only build-time errors. -/
inductive CommandBuilderError
  | missingId
  | missingCommand
  | missingDescription
deriving DecidableEq

/-- Model of CommandBuilder::build: rejects empty id/command/description and
otherwise constructs the Command with the builder's aliases as-is. -/
def CommandBuilder.build (b : CommandBuilder) : Except CommandBuilderError Command :=
  if b.id.isEmpty then .error .missingId
  else if b.command.isEmpty then .error .missingCommand
  else if b.description.isEmpty then .error .missingDescription
  else .ok ⟨b.id, b.command, b.description, b.allowed, b.args, b.aliases⟩

/-- Model of Command::possible_commands: the display name then the aliases. -/
def possibleCommands (c : Command) : List Str :=
  c.command :: c.aliases

/-- The raw-prefix test of Command::tail: candidate no longer than the data
and equal to the data's first candidate-length characters. -/
def startsWithStr (p d : Str) : Bool :=
  d.take p.length == p

/-- The candidate loop of Command::tail: the first candidate that is a raw
prefix of the data wins, returning the trimmed remainder. -/
def tailSearch (data : Str) : List Str → Option Str
  | [] => none
  | cmd :: rest =>
    if startsWithStr cmd data then some (trim (data.drop cmd.length))
    else tailSearch data rest

/-- Model of Command::tail. -/
def commandTail (c : Command) (data : Str) : Option Str :=
  tailSearch data (possibleCommands c)

/-- Model of Command::is_command_match: whole-string equality against the
display name or any alias. -/
def isCommandMatch (c : Command) (q : Str) : Bool :=
  (possibleCommands c).any (fun x => x == q)

/-- The usage-error reply text of Bind::extract_args. -/
def usagePre : Str := "usage: ".data

/-- Model of Bind::extract_args: an argument-free command matches only the
whole message text; otherwise the prefix-derived tail is matched against the
grammar, with Required becoming a usage error and NoMatch becoming no
dispatch. -/
def extractArgs (c : Command) (data : Str) :
    Except Str (Option (List (Str × Str))) :=
  if c.arguments.args.isEmpty && isCommandMatch c data then .ok (some [])
  else
    match commandTail c data with
    | none => .ok none
    | some t =>
      match c.arguments.extract t with
      | .required => .error (usagePre ++ c.command ++ [' '] ++ c.arguments.usage)
      | .noMatch => .ok none
      | .matched m => .ok (some m)

/-! ## Help registry and responder (help.rs, dispatcher.rs) -/

/-- Model of the Help entry. -/
structure Help where
  command : Str
  aliases : List Str
  description : Str
  usage : Str
  access : List Access
deriving DecidableEq

/-- Model of HelpRegistry::lookup over the registry (a BTreeMap modelled as
an id-keyed association list in key order): the first entry whose display
name or alias equals the query. -/
def helpLookup (reg : List (Str × Help)) (cmd : Str) : Option Help :=
  (reg.map Prod.snd).find? (fun v => v.command == cmd || v.aliases.contains cmd)

/-- The key under which the help grammar's optional slot stores the queried
command name. -/
def commandKey : Str := "command".data

/-- The reply prefix used for both a missing command and a denied command. -/
def unknownPre : Str := "unknown command: ".data

/-- The reply sent by try_send_help when the named command is not available
to the requester. -/
def unknownCommandReply (cmd : Str) : Str :=
  unknownPre ++ cmd

/-- The alias footer pieces of try_send_help's single-command reply. -/
def aliasOnePre : Str := "\navailable alias: ".data

/-- The multi-alias footer prefix of try_send_help's single-command reply. -/
def aliasManyPre : Str := "\navailable aliases: ".data

/-- The separator used when joining alias lists. -/
def commaSep : Str := ", ".data

/-- The usage + description + alias reply of try_send_help for an allowed,
found command. -/
def helpReplyFor (h : Help) : Str :=
  let r := h.command ++ (if h.usage.isEmpty then [] else [' '] ++ h.usage)
  let r := r ++ [':', ' '] ++ h.description
  match h.aliases with
  | [] => r
  | [a] => r ++ aliasOnePre ++ a
  | _ => r ++ aliasManyPre ++ joinWith commaSep h.aliases

/-- The per-command label of try_send_help's no-argument listing. -/
def entryLabel (h : Help) : Str :=
  match h.aliases with
  | [] => h.command
  | [a] => h.command ++ " (alias: ".data ++ a ++ [')']
  | _ => h.command ++ " (aliases: ".data ++ joinWith commaSep h.aliases ++ [')']

/-- The no-argument branch of try_send_help: every allowed command's label,
wrapped at ten entries per line. -/
def helpListing (reg : List (Str × Help)) (pm : PrivmsgMsg) : Str :=
  joinMultilineMax 10
    (((reg.map Prod.snd).filter (fun h => isAllowed pm h.access)).map entryLabel)

/-- Model of Dispatcher::try_send_help: the body of the reply the responder
sends (writer.reply's enqueueing is modelled elsewhere).  With a command
argument: lookup failure and access denial both reply with the identical
unknown-command text; otherwise the usage/description/alias reply.  With no
command argument: the allowed-command listing. -/
def trySendHelp (reg : List (Str × Help)) (args : List (Str × Str))
    (pm : PrivmsgMsg) : Str :=
  match lookupAssoc args commandKey with
  | some cmd =>
    match helpLookup reg cmd with
    | none => unknownCommandReply cmd
    | some h =>
      if isAllowed pm h.access then helpReplyFor h
      else unknownCommandReply cmd
  | none => helpListing reg pm

/-- The expect message of Writer::reply's msg_id unwrap. -/
def msgIdExpect : Str := "msg-id attached".data

/-- Model of Writer::reply: the expect on msg_id is a panic when the message
carries no msg-id tag, modelled as the error case carrying the expect
message. -/
def Writer.reply (closed : Bool) (m : PrivmsgMsg) (data : Str) :
    Except Str (List WriteKind) :=
  match m.msgId with
  | none => .error msgIdExpect
  | some id => .ok (writerSend closed (.reply id m.channel data))

/-! ## Auxiliary definitions for the claims -/

/-- Does the string contain no newline character? -/
def noNewline (s : Str) : Bool :=
  s.all (fun a => a != '\n')

/-- Does the frame's chat body (for Privmsg/Reply frames) contain no newline
character?  Other frames carry no multi-line body. -/
def frameClean : Frame → Bool
  | .privmsg _ d => noNewline d
  | .reply _ _ d => noNewline d
  | _ => true

/-- The usage string of the spec's extraction example. -/
def usageABC : Str := "<a> <b?> <c..>".data

/-- The message tail of the spec's extraction example. -/
def tailXYZW : Str := "x y z w".data

/-- The user id used in the spec's access-list example. -/
def fortyTwo : Str := "42".data

/-- A command named `hi` with one required argument slot, used to exercise
the prefix-matching behaviour of Command::tail via Bind::extract_args. -/
def hiCmd : Command :=
  ⟨"i".data, "hi".data, "d".data, [], ⟨"<a>".data, [⟨['a'], .required⟩]⟩, []⟩

/-- The message text exercising the no-separator prefix match. -/
def hixData : Str := "hix".data

/-- A message whose sender carries no user-id tag. -/
def pmNoId : PrivmsgMsg :=
  ⟨"user".data, "#c".data, [], none, none, false, false, false, false⟩

/-- A message whose sender's user id is 9 (not 42). -/
def pmNine : PrivmsgMsg :=
  ⟨"user".data, "#c".data, [], some ['9'], none, false, false, false, false⟩

/-- A help entry restricted to user id 42. -/
def deniedHelp : Help :=
  ⟨['c'], [], ['d'], [], [.userId fortyTwo]⟩

/-- A help registry containing only the restricted entry. -/
def regDenied : List (Str × Help) :=
  [(['i'], deniedHelp)]

/-- Help-responder arguments naming the command `c`. -/
def argsC : List (Str × Str) :=
  [(commandKey, ['c'])]

/-! ## Shared lemmas -/

theorem splitOnChar_ne_nil (c : Char) (l : Str) : splitOnChar c l ≠ [] := by
  cases l with
  | nil => simp [splitOnChar]
  | cons x xs =>
    rw [splitOnChar]
    split <;> simp

theorem not_mem_of_mem_splitOnChar (c : Char) (l : Str) :
    ∀ seg ∈ splitOnChar c l, c ∉ seg := by
  induction l with
  | nil =>
    intro seg hs
    simp [splitOnChar] at hs
    subst hs
    simp
  | cons x xs ih =>
    intro seg hs
    rw [splitOnChar] at hs
    by_cases hx : x = c
    · rw [if_pos hx] at hs
      rcases List.mem_cons.mp hs with rfl | h
      · simp
      · exact ih seg h
    · rw [if_neg hx] at hs
      rcases List.mem_cons.mp hs with rfl | h
      · intro hc
        rcases List.mem_cons.mp hc with rfl | hcs
        · exact hx rfl
        · rcases hr : splitOnChar c xs with _ | ⟨y, ys⟩
          · exact splitOnChar_ne_nil c xs hr
          · rw [hr] at hcs
            simp only [List.headD_cons] at hcs
            exact ih y (by rw [hr]; exact List.mem_cons_self y ys) hcs
      · rcases hr : splitOnChar c xs with _ | ⟨y, ys⟩
        · exact absurd hr (splitOnChar_ne_nil c xs)
        · rw [hr] at h
          simp only [List.tail_cons] at h
          exact ih seg (by rw [hr]; exact List.mem_cons_of_mem y h)

theorem mem_of_mem_trim {a : Char} {l : Str} (h : a ∈ trim l) : a ∈ l := by
  unfold trim at h
  rw [List.mem_reverse] at h
  have h2 : a ∈ (l.dropWhile isWspace).reverse :=
    (List.dropWhile_sublist _).subset h
  rw [List.mem_reverse] at h2
  exact (List.dropWhile_sublist _).subset h2

theorem drain_spec (pending : List WriteKind) :
    ∀ s : ClientState,
      drainPendingWrites s pending
        = ⟨channelFold s.channels pending,
           s.queue ++ pending.filter (fun k => !isMembership k)⟩ := by
  induction pending with
  | nil => intro s; simp [drainPendingWrites, channelFold]
  | cons k ks ih =>
    intro s
    have hstep : drainPendingWrites s (k :: ks)
        = drainPendingWrites (drainStep s k) ks := rfl
    cases k with
    | join c =>
      rw [hstep, ih]
      simp [drainStep, channelFold, isMembership]
    | part c =>
      rw [hstep, ih]
      simp [drainStep, channelFold, isMembership]
    | raw r =>
      rw [hstep, ih]
      simp [drainStep, channelFold, isMembership]
    | privmsg t d =>
      rw [hstep, ih]
      simp [drainStep, channelFold, isMembership]
    | reply i t d =>
      rw [hstep, ih]
      simp [drainStep, channelFold, isMembership]
    | quit =>
      rw [hstep, ih]
      simp [drainStep, channelFold, isMembership]

theorem runTrace_pings_of_no_ready (events : List Event) :
    ∀ s : LoopState, s.ourName = none →
      events.all (fun e => !isReadyEvent e) = true →
      (runTrace s events).all (fun f => f == Frame.ping) = true := by
  induction events with
  | nil => intro s _ _; rfl
  | cons e es ih =>
    intro s hn hev
    rw [List.all_cons, Bool.and_eq_true] at hev
    obtain ⟨he, hes⟩ := hev
    cases e with
    | inbound m =>
      cases m with
      | ready name => simp [isReadyEvent] at he
      | globalUserState uid => simp [runTrace, step, hn]
      | joined u c => simpa [runTrace, step] using ih s hn hes
      | parted u c => simpa [runTrace, step] using ih s hn hes
      | privmsg a b c => simpa [runTrace, step] using ih s hn hes
      | other => simpa [runTrace, step] using ih s hn hes
    | writeReq k =>
      have hnext := ih { s with queue := s.queue ++ [k] } hn hes
      simpa [runTrace, step, hn] using hnext
    | timeout =>
      have hnext := ih s hn hes
      simpa [runTrace, step] using hnext
    | readClosed => simp [runTrace, step]
    | queueClosed => simp [runTrace, step]

theorem tailSearch_isSome (data : Str) (l : List Str) (c : Str)
    (hc : c ∈ l) (hp : startsWithStr c data = true) :
    (tailSearch data l).isSome = true := by
  induction l with
  | nil => cases hc
  | cons x xs ih =>
    by_cases hx : startsWithStr x data = true
    · simp [tailSearch, hx]
    · rcases List.mem_cons.mp hc with rfl | h
      · exact absurd hp hx
      · rw [tailSearch, if_neg hx]
        exact ih h

/-! ## Claims -/

/-- C1, counterexample: the claim requires the rejoin Joins to appear in the
channels' original (insertion) order, but the channel set is a Rust HashSet,
whose iteration order is arbitrary: any permutation of the contents is a
possible enumeration.  After draining Join a then Join b (insertion order
a, b), the enumeration b, a is a valid iteration order (a permutation of the
contents), and the resulting rejoin prelude differs from the insertion-order
Joins. -/
theorem rejoin_order_not_insertion_order :
    ([['b'], ['a']] : List Str).Perm
        (drainPendingWrites ⟨[], []⟩ [.join ['a'], .join ['b']]).channels
    ∧ runWrites [['b'], ['a']] ⟨none, []⟩ []
        ≠ ((drainPendingWrites ⟨[], []⟩ [.join ['a'], .join ['b']]).channels).map
            Frame.join := by
  decide

/-- C1, amended: after any successful handshake the event loop re-issues a
Join for every channel in the joined-channel set, in the set's (unspecified)
iteration order, before any other queued write is flushed to the socket: the
whole write trace is the Join prelude followed by the loop's frames, its
first frames are exactly the prelude, and every previously joined channel
has a Join in that prelude. -/
theorem rejoin_covers_all_channels_first (chans chanIter : List Str)
    (queue : List WriteKind) (events : List Event)
    (hperm : chanIter.Perm chans) :
    runWrites chanIter ⟨none, queue⟩ events
        = chanIter.map Frame.join ++ runTrace ⟨none, queue⟩ events
    ∧ (runWrites chanIter ⟨none, queue⟩ events).take chanIter.length
        = chanIter.map Frame.join
    ∧ chans.all (fun c => decide (Frame.join c ∈ chanIter.map Frame.join)) = true := by
  refine ⟨rfl, ?_, ?_⟩
  · have hl : chanIter.length = (chanIter.map Frame.join).length :=
      (List.length_map _ _).symm
    rw [runWrites, hl, List.take_left]
  · rw [List.all_eq_true]
    intro c hc
    rw [decide_eq_true_eq]
    exact List.mem_map_of_mem Frame.join (hperm.mem_iff.mpr hc)

/-- C1, witness: the amended rejoin statement at a concrete two-channel set
with the reversed enumeration. -/
theorem rejoin_covers_all_channels_first_witness :
    runWrites [['b'], ['a']] ⟨none, []⟩ []
        = ([['b'], ['a']] : List Str).map Frame.join ++ runTrace ⟨none, []⟩ []
    ∧ (runWrites [['b'], ['a']] ⟨none, []⟩ []).take
          ([['b'], ['a']] : List Str).length
        = ([['b'], ['a']] : List Str).map Frame.join
    ∧ ([['a'], ['b']] : List Str).all
        (fun c => decide (Frame.join c ∈ ([['b'], ['a']] : List Str).map Frame.join))
        = true :=
  rejoin_covers_all_channels_first [['a'], ['b']] [['b'], ['a']] [] [] (by decide)

/-- C2, counterexample: a Join write request received by the event loop's
write-queue branch before the handshake (login name still unknown) is pushed
onto the pending queue, contradicting the claim that a Join received via the
event loop never enters the pending queue and updates the joined-channel set
immediately (the loop state carries no channel set at all: Client::run never
mutates self.channels). -/
theorem loop_join_enters_pending_queue :
    step ⟨none, []⟩ (.writeReq (.join ['a']))
      = .next ⟨none, [.join ['a']]⟩ [] := by
  decide

/-- C2, amended: Join/Part requests received via drain_pending_writes update
the joined-channel set and never enter the pending queue (the queue receives
exactly the non-membership requests, in order), but a Join/Part received via
the event loop's write-queue branch is treated like any other write: before
the login name is known it is pushed onto the pending queue and the channel
set is untouched. -/
theorem membership_routing (s : ClientState) (pending : List WriteKind)
    (st : LoopState) (k : WriteKind) (hn : st.ourName = none) :
    (drainPendingWrites s pending).queue
        = s.queue ++ pending.filter (fun k2 => !isMembership k2)
    ∧ (drainPendingWrites s pending).channels = channelFold s.channels pending
    ∧ step st (.writeReq k) = .next ⟨none, st.queue ++ [k]⟩ [] := by
  refine ⟨?_, ?_, ?_⟩
  · rw [drain_spec]
  · rw [drain_spec]
  · obtain ⟨n, q⟩ := st
    simp only at hn
    subst hn
    rfl

/-- C2, witness: the membership-routing statement at a concrete drain of one
Join, one Part and one Raw, and a concrete pre-handshake loop state. -/
theorem membership_routing_witness :
    (drainPendingWrites ⟨[], []⟩ [.join ['a'], .part ['a'], .raw ['x']]).queue
        = [] ++ ([.join ['a'], .part ['a'], .raw ['x']] : List WriteKind).filter
            (fun k2 => !isMembership k2)
    ∧ (drainPendingWrites ⟨[], []⟩ [.join ['a'], .part ['a'], .raw ['x']]).channels
        = channelFold [] [.join ['a'], .part ['a'], .raw ['x']]
    ∧ step ⟨none, []⟩ (.writeReq (.raw ['x'])) = .next ⟨none, [] ++ [.raw ['x']]⟩ [] :=
  membership_routing ⟨[], []⟩ [.join ['a'], .part ['a'], .raw ['x']]
    ⟨none, []⟩ (.raw ['x']) rfl

/-- C3, counterexample: starting from the initial loop state, the trace
Ready then a Message write request emits the message frame to the socket even
though no global-identity message was ever processed (Identity is never
resolved in this trace): the gate in Client::run is our_name.is_some(), set
by the Ready message, not Identity resolution. -/
theorem write_flushed_before_identity_resolved :
    runTrace ⟨none, []⟩
        [.inbound (.ready "bot".data), .writeReq (.privmsg ['#', 'c'] ['h', 'i'])]
      = [Frame.privmsg ['#', 'c'] ['h', 'i']]
    ∧ ([.inbound (.ready "bot".data),
        .writeReq (.privmsg ['#', 'c'] ['h', 'i'])] : List Event).all
          (fun e => !isIdentityEvent e) = true := by
  decide

/-- C3, amended: no Message/Reply/Raw/Quit write request reaches the socket
before the Ready message resolves the bot's login name (the gate is the
recorded login name, not Identity resolution): as long as no Ready message
has been processed, the loop emits only keepalive pings, and a write request
arriving in that period is buffered in the pending queue. -/
theorem no_request_frames_before_ready (s : LoopState) (events : List Event)
    (k : WriteKind) (hn : s.ourName = none)
    (hev : events.all (fun e => !isReadyEvent e) = true) :
    (runTrace s events).all (fun f => f == Frame.ping) = true
    ∧ step s (.writeReq k) = .next ⟨none, s.queue ++ [k]⟩ [] := by
  constructor
  · exact runTrace_pings_of_no_ready events s hn hev
  · obtain ⟨n, q⟩ := s
    simp only at hn
    subst hn
    rfl

/-- C3, witness: the pre-Ready statement on a concrete trace of a timeout
and an inbound chat message, with a concrete buffered Raw request. -/
theorem no_request_frames_before_ready_witness :
    (runTrace ⟨none, []⟩
        [.timeout, .inbound (.privmsg ['u'] ['#'] ['h'])]).all
          (fun f => f == Frame.ping) = true
    ∧ step ⟨none, []⟩ (.writeReq (.raw ['x'])) = .next ⟨none, [] ++ [.raw ['x']]⟩ [] :=
  no_request_frames_before_ready ⟨none, []⟩
    [.timeout, .inbound (.privmsg ['u'] ['#'] ['h'])] (.raw ['x']) rfl (by decide)

/-- C4: compiling the usage string <a> <b?> <c..> and extracting from the
tail x y z w yields exactly the mapping a to x, b to y, c to z w (the map is
an association list with unique keys standing for the HashMap). -/
theorem usage_abc_extraction :
    (ExampleArgs.fromStr usageABC).map (fun g => g.extract tailXYZW)
      = .ok (.matched [(['a'], ['x']), (['b'], ['y']), (['c'], ['z', ' ', 'w'])]) := by
  decide

/-- C5, counterexample: for the access list restricted to user id 42, a
sender carrying no user-id tag is allowed by the code (the claim says every
sender whose user id is not 42 is denied). -/
theorem no_user_id_sender_allowed :
    pmNoId.userId ≠ some fortyTwo
    ∧ isAllowed pmNoId [.userId fortyTwo] = true := by
  decide

/-- C5, amended: the empty access list allows every sender; for the access
list restricted to user id 42, a sender with an identifiable user id is
allowed exactly when that id is 42, while a sender lacking a user id is
always allowed; and the predicates are an OR: the message is allowed as soon
as any one predicate in the list matches. -/
theorem access_eval_or_semantics (pm : PrivmsgMsg) :
    isAllowed pm [] = true
    ∧ (pm.userId = some fortyTwo → isAllowed pm [.userId fortyTwo] = true)
    ∧ (∀ uid, pm.userId = some uid → uid ≠ fortyTwo →
        isAllowed pm [.userId fortyTwo] = false)
    ∧ (pm.userId = none → isAllowed pm [.userId fortyTwo] = true)
    ∧ (∀ acl a uid, pm.userId = some uid → a ∈ acl →
        accessMatches pm uid a = true → isAllowed pm acl = true) := by
  refine ⟨rfl, ?_, ?_, ?_, ?_⟩
  · intro h
    simp [isAllowed, h, accessMatches]
  · intro uid h hne
    simp [isAllowed, h, accessMatches]
    exact fun he => hne he.symm
  · intro h
    simp [isAllowed, h]
  · intro acl a uid hpm ha hm
    cases acl with
    | nil => cases ha
    | cons x xs =>
      simp only [isAllowed, List.isEmpty_cons, hpm]
      rw [if_neg (by simp)]
      exact List.any_eq_true.mpr ⟨a, ha, hm⟩

/-- C5, witness: the amended access statement at concrete senders with id 42,
id 9 and no id, and the OR short-circuit on a two-predicate list. -/
theorem access_eval_or_semantics_witness :
    isAllowed pmNine [] = true
    ∧ (pmNine.userId = some fortyTwo → isAllowed pmNine [.userId fortyTwo] = true)
    ∧ (∀ uid, pmNine.userId = some uid → uid ≠ fortyTwo →
        isAllowed pmNine [.userId fortyTwo] = false)
    ∧ (pmNine.userId = none → isAllowed pmNine [.userId fortyTwo] = true)
    ∧ (∀ acl a uid, pmNine.userId = some uid → a ∈ acl →
        accessMatches pmNine uid a = true → isAllowed pmNine acl = true) :=
  access_eval_or_semantics pmNine

/-- C6, counterexample: registering the same alias twice on a command builder
is not surfaced as a construction-time error: build succeeds and the alias
list keeps the alias once (the claim requires a build-time error; the only
builder errors are missing id/command/description). -/
theorem duplicate_alias_builds_ok :
    (((Command.mkBuilder ['i'] ['c'] ['d']).alias ['a']).alias ['a']).build
      = .ok ⟨['i'], ['c'], ['d'], [], ⟨[], []⟩, [['a']]⟩ := by
  decide

/-- C6, amended: registering a duplicate alias is silently ignored, not
rejected: a second registration of the same alias leaves the builder
unchanged (so the alias set stays insertion-ordered and duplicate-free), and
build never fails or changes anything because of aliases: whenever it
succeeds, the command carries exactly the builder's alias list. -/
theorem duplicate_alias_silently_ignored (b : CommandBuilder) (a : Str) :
    (b.alias a).alias a = b.alias a
    ∧ (a ∈ b.seen → b.alias a = b)
    ∧ (∀ c, b.build = .ok c → c.aliases = b.aliases) := by
  refine ⟨?_, ?_, ?_⟩
  · by_cases h : a ∈ b.seen
    · simp [CommandBuilder.alias, h]
    · have h2 : a ∈ b.seen ++ [a] := List.mem_append_right _ (List.mem_singleton.mpr rfl)
      simp [CommandBuilder.alias, h, h2]
  · intro h
    simp [CommandBuilder.alias, h]
  · intro c hc
    unfold CommandBuilder.build at hc
    split at hc
    · exact Except.noConfusion hc
    · split at hc
      · exact Except.noConfusion hc
      · split at hc
        · exact Except.noConfusion hc
        · cases hc
          rfl

/-- C6, witness: the silently-ignored statement at a concrete builder with a
seen alias. -/
theorem duplicate_alias_silently_ignored_witness :
    ((Command.mkBuilder ['i'] ['c'] ['d']).alias ['a']).alias ['a']
        = (Command.mkBuilder ['i'] ['c'] ['d']).alias ['a']
    ∧ (['a'] ∈ (Command.mkBuilder ['i'] ['c'] ['d']).seen →
        (Command.mkBuilder ['i'] ['c'] ['d']).alias ['a']
          = Command.mkBuilder ['i'] ['c'] ['d'])
    ∧ (∀ c, (Command.mkBuilder ['i'] ['c'] ['d']).build = .ok c →
        c.aliases = (Command.mkBuilder ['i'] ['c'] ['d']).aliases) :=
  duplicate_alias_silently_ignored (Command.mkBuilder ['i'] ['c'] ['d']) ['a']

/-- C7: with a command-name argument, the help responder's reply when the
named command does not exist in the registry is identical to its reply when
the command exists but the requester's message is denied by its access list:
both are the unknown-command reply, so denial and not-found are
indistinguishable to the requester. -/
theorem help_denied_indistinguishable (reg1 reg2 : List (Str × Help))
    (args : List (Str × Str)) (pm1 pm2 : PrivmsgMsg) (cmd : Str) (h : Help)
    (hargs : lookupAssoc args commandKey = some cmd)
    (h1 : helpLookup reg1 cmd = none)
    (h2 : helpLookup reg2 cmd = some h)
    (hdenied : isAllowed pm2 h.access = false) :
    trySendHelp reg1 args pm1 = trySendHelp reg2 args pm2
    ∧ trySendHelp reg1 args pm1 = unknownCommandReply cmd := by
  refine ⟨?_, ?_⟩ <;> simp [trySendHelp, hargs, h1, h2, hdenied]

/-- C7, witness: the indistinguishability statement at an empty registry, a
registry holding one id-42-restricted command, and a requester with user
id 9. -/
theorem help_denied_indistinguishable_witness :
    trySendHelp [] argsC pmNine = trySendHelp regDenied argsC pmNine
    ∧ trySendHelp [] argsC pmNine = unknownCommandReply ['c'] :=
  help_denied_indistinguishable [] regDenied argsC pmNine pmNine ['c'] deniedHelp
    (by decide) (by decide) (by decide) (by decide)

/-- C8: a Message or Reply write request's body is split on newline
characters and emitted as one frame per segment, each segment trimmed of
surrounding whitespace, and no emitted frame's body contains a newline
character. -/
theorem message_bodies_split_trimmed (i t d : Str) :
    handleWrite (.privmsg t d)
        = (splitOnChar '\n' d).map (fun seg => .privmsg t (trim seg))
    ∧ handleWrite (.reply i t d)
        = (splitOnChar '\n' d).map (fun seg => .reply i t (trim seg))
    ∧ (handleWrite (.privmsg t d)).all frameClean = true
    ∧ (handleWrite (.reply i t d)).all frameClean = true := by
  refine ⟨rfl, rfl, ?_, ?_⟩
  · rw [List.all_eq_true]
    intro f hf
    obtain ⟨seg, hseg, rfl⟩ := List.mem_map.mp hf
    rw [frameClean, noNewline, List.all_eq_true]
    intro a ha
    rw [bne_iff_ne]
    intro hac
    exact not_mem_of_mem_splitOnChar '\n' d seg hseg (hac ▸ mem_of_mem_trim ha)
  · rw [List.all_eq_true]
    intro f hf
    obtain ⟨seg, hseg, rfl⟩ := List.mem_map.mp hf
    rw [frameClean, noNewline, List.all_eq_true]
    intro a ha
    rw [bne_iff_ne]
    intro hac
    exact not_mem_of_mem_splitOnChar '\n' d seg hseg (hac ▸ mem_of_mem_trim ha)

/-- C9: command matching is by raw string prefix, not whole token: whenever
any candidate (the display name or an alias) is a character-for-character
prefix of the message text, Command::tail finds a tail; for a lone candidate
the tail is the text after the prefix, trimmed; and concretely the text hix
matches the command hi (argument grammar with one required slot) with
extracted argument a mapped to x. -/
theorem prefix_match_uses_trimmed_tail (cmd : Command) (data c : Str)
    (hc : c ∈ possibleCommands cmd) (hp : startsWithStr c data = true) :
    (commandTail cmd data).isSome = true
    ∧ tailSearch data [c] = some (trim (data.drop c.length))
    ∧ extractArgs hiCmd hixData = .ok (some [(['a'], ['x'])]) := by
  refine ⟨?_, ?_, ?_⟩
  · exact tailSearch_isSome data (possibleCommands cmd) c hc hp
  · rw [tailSearch, if_pos hp]
  · decide

/-- C9, witness: the prefix-matching statement at the concrete command hi and
text hix. -/
theorem prefix_match_uses_trimmed_tail_witness :
    (commandTail hiCmd hixData).isSome = true
    ∧ tailSearch hixData [hiCmd.command]
        = some (trim (hixData.drop hiCmd.command.length))
    ∧ extractArgs hiCmd hixData = .ok (some [(['a'], ['x'])]) :=
  prefix_match_uses_trimmed_tail hiCmd hixData hiCmd.command
    (by decide) (by decide)

/-- C10: Writer::reply panics (modelled as the error case carrying the expect
message) exactly when the replied-to message has no msg-id tag, while every
other Writer send method is total: each is a plain function that enqueues its
request, and on a closed channel every send silently drops the request. -/
theorem reply_panics_without_msg_id (closed : Bool) (m : PrivmsgMsg)
    (data ch : Str) :
    (m.msgId = none → Writer.reply closed m data = .error msgIdExpect)
    ∧ (∀ id2, m.msgId = some id2 →
        Writer.reply closed m data
          = .ok (writerSend closed (.reply id2 m.channel data)))
    ∧ Writer.joinChannel closed ch = writerSend closed (.join ch)
    ∧ Writer.partChannel closed ch = writerSend closed (.part ch)
    ∧ Writer.sendRaw closed ch = writerSend closed (.raw ch)
    ∧ Writer.privmsg closed m data = writerSend closed (.privmsg m.channel data)
    ∧ Writer.quit closed = writerSend closed .quit
    ∧ (∀ k, writerSend true k = []) := by
  refine ⟨?_, ?_, rfl, rfl, rfl, rfl, rfl, fun k => rfl⟩
  · intro h
    simp [Writer.reply, h]
  · intro id2 h
    simp [Writer.reply, h]

/-- C10, witness: the reply-panics statement at a concrete message with no
msg-id tag. -/
theorem reply_panics_without_msg_id_witness :
    (pmNoId.msgId = none → Writer.reply false pmNoId ['x'] = .error msgIdExpect)
    ∧ (∀ id2, pmNoId.msgId = some id2 →
        Writer.reply false pmNoId ['x']
          = .ok (writerSend false (.reply id2 pmNoId.channel ['x'])))
    ∧ Writer.joinChannel false ['a'] = writerSend false (.join ['a'])
    ∧ Writer.partChannel false ['a'] = writerSend false (.part ['a'])
    ∧ Writer.sendRaw false ['a'] = writerSend false (.raw ['a'])
    ∧ Writer.privmsg false pmNoId ['x'] = writerSend false (.privmsg pmNoId.channel ['x'])
    ∧ Writer.quit false = writerSend false .quit
    ∧ (∀ k, writerSend true k = []) :=
  reply_panics_without_msg_id false pmNoId ['x'] ['a']

end TMB
